import Mathlib

/-!
Verification of the RPC load balancer core of this repository
(`src/service/rpc/generic/LoadBalancer.ts` and the `Utils` status-payload
codec), as a shallow embedding: each TypeScript function the claims touch is
translated into an executable Lean definition, and the claimed properties are
settled as theorems over those definitions.
-/

namespace TatumLB

/-- Embeds the `RpcNodeType` enum: an endpoint is either a NORMAL or an
ARCHIVE node. -/
inductive RpcNodeType where
  | NORMAL : RpcNodeType
  | ARCHIVE : RpcNodeType
deriving DecidableEq

/-- Embeds the `RpcStatus` record of `LoadBalancer.ts` (the nested
`node: { url }` object is flattened to the `url` field). `lastBlock` and
`lastResponseTime` are JS numbers holding integral values, embedded as `Int`. -/
structure RpcStatus where
  url : String
  lastBlock : Int
  lastResponseTime : Int
  failed : Bool
deriving DecidableEq

instance : Inhabited RpcStatus := ⟨⟨"", 0, 0, false⟩⟩

/-- Embeds the `UrlIndex` record: the `(url, index)` pair held in
`activeUrl[nodeType]`. -/
structure UrlIndex where
  url : String
  index : Nat
deriving DecidableEq

/-- Embeds the `RpcNode` record of the manifest / static configuration:
`{ url, type }`. -/
structure RpcNode where
  url : String
  type : RpcNodeType
deriving DecidableEq

/-- The mutable state of one `LoadBalancer` instance: the two endpoint lists
`rpcUrls[NORMAL]`, `rpcUrls[ARCHIVE]` and the two active selections. The
initial JS value `{} as UrlIndex` (no `url`/`index` set) is embedded as
`none`. -/
structure LBState where
  rpcUrlsNormal : List RpcStatus
  rpcUrlsArchive : List RpcStatus
  activeNormal : Option UrlIndex
  activeArchive : Option UrlIndex
deriving DecidableEq

/-- The fresh state the constructor builds: both lists empty, no active url. -/
def emptyState : LBState := ⟨[], [], none, none⟩

def LBState.rpcUrls (st : LBState) : RpcNodeType → List RpcStatus
  | .NORMAL => st.rpcUrlsNormal
  | .ARCHIVE => st.rpcUrlsArchive

def LBState.active (st : LBState) : RpcNodeType → Option UrlIndex
  | .NORMAL => st.activeNormal
  | .ARCHIVE => st.activeArchive

def LBState.setRpcUrls (st : LBState) (k : RpcNodeType) (l : List RpcStatus) : LBState :=
  match k with
  | .NORMAL => { st with rpcUrlsNormal := l }
  | .ARCHIVE => { st with rpcUrlsArchive := l }

def LBState.setActive (st : LBState) (k : RpcNodeType) (a : Option UrlIndex) : LBState :=
  match k with
  | .NORMAL => { st with activeNormal := a }
  | .ARCHIVE => { st with activeArchive := a }

/-! ### Selection Policy: `LoadBalancer.getFastestServer` -/

/-- Embeds `isFasterBlock`: `item.lastBlock - allowedBlocksBehind >
result.fastestServer.lastBlock`. The initial accumulator of the JS `reduce`
is the synthetic record `{ lastBlock: -Infinity, lastResponseTime: Infinity,
index: -1 }`, embedded as `none`; against it the comparison
`c.lastBlock - allowed > -Infinity` is true for every finite candidate. -/
def fasterBlockB (allowedBlocksBehind : Int) (acc : Option (RpcStatus × Nat))
    (c : RpcStatus) : Bool :=
  match acc with
  | none => true
  | some (w, _) => decide (w.lastBlock < c.lastBlock - allowedBlocksBehind)

/-- Embeds `isSameBlockFasterResponse`: `item.lastBlock ===
result.fastestServer.lastBlock && item.lastResponseTime <
result.fastestServer.lastResponseTime`. Against the synthetic initial
accumulator (`none`), `c.lastBlock === -Infinity` is false for every finite
candidate. -/
def sameBlockFasterB (acc : Option (RpcStatus × Nat)) (c : RpcStatus) : Bool :=
  match acc with
  | none => false
  | some (w, _) =>
      decide (c.lastBlock = w.lastBlock) && decide (c.lastResponseTime < w.lastResponseTime)

/-- One step of the `reduce` inside `getFastestServer`: keep the running
winner unless the candidate is not failed and is either ahead by more than
the tolerance or at the same block with a faster response. `x` carries
`(index, item)` as produced by enumeration. -/
def fastestStep (allowedBlocksBehind : Int) (acc : Option (RpcStatus × Nat))
    (x : Nat × RpcStatus) : Option (RpcStatus × Nat) :=
  if !x.2.failed && (fasterBlockB allowedBlocksBehind acc x.2 || sameBlockFasterB acc x.2) then
    some (x.2, x.1)
  else
    acc

/-- Embeds `LoadBalancer.getFastestServer`. The JS reduce over
`servers` with explicit indexes is the fold of `fastestStep` over the
enumerated list; returning `none` embeds the JS result `index === -1`
(the synthetic initial record was never replaced). -/
def getFastestServer (servers : List RpcStatus) (allowedBlocksBehind : Int) :
    Option (RpcStatus × Nat) :=
  (servers.enum).foldl (fastestStep allowedBlocksBehind) none

/-- Each fold step either keeps the accumulator or installs the current
candidate, and it installs only non-failed candidates. -/
lemma fastestStep_cases (allowed : Int) (acc : Option (RpcStatus × Nat))
    (x : Nat × RpcStatus) :
    fastestStep allowed acc x = acc ∨
      (fastestStep allowed acc x = some (x.2, x.1) ∧ x.2.failed = false) := by
  unfold fastestStep
  by_cases h : (!x.2.failed && (fasterBlockB allowed acc x.2 || sameBlockFasterB acc x.2)) = true
  · right
    refine ⟨by rw [if_pos h], ?_⟩
    have h1 := (Bool.and_eq_true _ _).mp h |>.1
    simpa using h1
  · left
    rw [if_neg h]

/-- A winner produced by the fold is either the accumulator it started from
or a non-failed entry of the enumerated list. -/
lemma foldl_fastest_spec (allowed : Int) :
    ∀ (l : List (Nat × RpcStatus)) (acc : Option (RpcStatus × Nat)) (w : RpcStatus) (i : Nat),
      l.foldl (fastestStep allowed) acc = some (w, i) →
      acc = some (w, i) ∨ ((i, w) ∈ l ∧ w.failed = false) := by
  intro l
  induction l with
  | nil => intro acc w i h; exact Or.inl h
  | cons x xs ih =>
    intro acc w i h
    rcases ih (fastestStep allowed acc x) w i h with h1 | h2
    · rcases fastestStep_cases allowed acc x with hc | ⟨hc, hf⟩
      · exact Or.inl (hc ▸ h1)
      · rw [hc] at h1
        obtain ⟨hw, hi⟩ := Prod.mk.injEq .. ▸ Option.some.inj h1
        right
        refine ⟨?_, hw ▸ hf⟩
        have : x = (i, w) := by
          cases x; simp_all
        simp [this]
    · exact Or.inr ⟨List.mem_cons_of_mem _ h2.1, h2.2⟩

/-- Membership in `enumFrom` recovers a positional access into the base list. -/
lemma mem_enumFrom_spec :
    ∀ (l : List RpcStatus) (n i : Nat) (w : RpcStatus),
      (i, w) ∈ l.enumFrom n →
      n ≤ i ∧ i - n < l.length ∧ l.getD (i - n) default = w := by
  intro l
  induction l with
  | nil => intro n i w h; simp [List.enumFrom] at h
  | cons x xs ih =>
    intro n i w h
    simp only [List.enumFrom, List.mem_cons] at h
    rcases h with h | h
    · obtain ⟨rfl, rfl⟩ := Prod.mk.injEq .. ▸ h
      simp
    · obtain ⟨h1, h2, h3⟩ := ih (n + 1) i w h
      refine ⟨by omega, ?_, ?_⟩
      · simpa [Nat.sub_add_eq] using by omega
      · have hs : i - n = (i - (n + 1)) + 1 := by omega
        rw [hs]
        simpa using h3

/-- C1. The Selection Policy never selects a failed endpoint: whenever
`getFastestServer` returns a winner (JS index different from `-1`), the
winner sits at a valid index of the input list, is the entry at that index,
and has `failed == false`. -/
theorem getFastestServer_never_failed (servers : List RpcStatus) (allowed : Int)
    (w : RpcStatus) (i : Nat)
    (h : getFastestServer servers allowed = some (w, i)) :
    i < servers.length ∧ servers.getD i default = w ∧ w.failed = false := by
  unfold getFastestServer at h
  rcases foldl_fastest_spec allowed (servers.enum) none w i h with h1 | ⟨hmem, hf⟩
  · exact absurd h1 (by simp)
  · have hspec := mem_enumFrom_spec servers 0 i w (by simpa [List.enum] using hmem)
    exact ⟨by simpa using hspec.2.1, by simpa using hspec.2.2, hf⟩

/-- Witness for C1 on a concrete registry: the failed endpoint `"a"` is
skipped and the non-failed `"b"` at index 1 is selected. -/
theorem getFastestServer_never_failed_witness :
    1 < ([⟨"a", 5, 10, true⟩, ⟨"b", 3, 10, false⟩] : List RpcStatus).length ∧
      ([⟨"a", 5, 10, true⟩, ⟨"b", 3, 10, false⟩] : List RpcStatus).getD 1 default
        = ⟨"b", 3, 10, false⟩ ∧
      (⟨"b", 3, 10, false⟩ : RpcStatus).failed = false :=
  getFastestServer_never_failed [⟨"a", 5, 10, true⟩, ⟨"b", 3, 10, false⟩] 0
    ⟨"b", 3, 10, false⟩ 1 (by decide)

/-! ### Bootstrap: `checkSSRF`, `initRemoteHosts`, `initCustomNodes` -/

/-- Helper for the JS `String.prototype.endsWith`: prefix test on character
lists. -/
def listStartsWithCh : List Char → List Char → Bool
  | _, [] => true
  | [], _ :: _ => false
  | c :: cs, d :: ds => (c == d) && listStartsWithCh cs ds

/-- Embeds the JS `String.prototype.endsWith`: whether `suffix` is a suffix
of `s`. -/
def strEndsWith (s suffix : String) : Bool :=
  listStartsWithCh s.data.reverse suffix.data.reverse

/-- Embeds `LoadBalancer.checkSSRF`: parse the URL (`new URL(url)`), return
whether the parsed hostname ends with `'rpc.tatum.io'`; a parse failure is
caught and yields `false`. URL parsing is abstracted as a hostname extractor
`parseHostname`, with `none` embedding the thrown `TypeError`. -/
def checkSSRF (parseHostname : String → Option String) (url : String) : Bool :=
  match parseHostname url with
  | some host => strEndsWith host "rpc.tatum.io"
  | none => false

/-- Embeds the `InitRemoteHostsParams` record: `{ nodeType, nodes,
noSSRFCheck }` (the optional flag defaults to `false`). -/
structure InitRemoteHostsParams where
  nodeType : RpcNodeType
  nodes : List RpcNode
  noSSRFCheck : Bool

/-- Embeds the `nodes.filter(...)` inside `initRemoteHosts`: keep a node when
its `type` matches the requested kind, and — unless `noSSRFCheck` — when it
also passes the SSRF check. -/
def remoteHostsFilter (parseHostname : String → Option String)
    (p : InitRemoteHostsParams) : List RpcNode :=
  p.nodes.filter fun node =>
    if p.noSSRFCheck then decide (node.type = p.nodeType)
    else decide (node.type = p.nodeType) && checkSSRF parseHostname node.url

/-- Fresh `RpcStatus` built for an admitted node:
`{ node: { url }, lastBlock: 0, lastResponseTime: 0, failed: false }`. -/
def toRpcStatus (n : RpcNode) : RpcStatus := ⟨n.url, 0, 0, false⟩

/-- Embeds `LoadBalancer.initRemoteHosts`: filter the nodes, return the state
unchanged when nothing is admitted, otherwise append the admitted nodes to
`rpcUrls[nodeType]` and point `activeUrl[nodeType]` at a random index of the
grown list. `randomIndex` stands for `Math.floor(Math.random() * length)`,
which is always `< length`; theorems carry that bound as a hypothesis. -/
def initRemoteHosts (parseHostname : String → Option String) (st : LBState)
    (p : InitRemoteHostsParams) (randomIndex : Nat) : LBState :=
  let filteredNodes := remoteHostsFilter parseHostname p
  if filteredNodes.isEmpty then st
  else
    let newList := st.rpcUrls p.nodeType ++ filteredNodes.map toRpcStatus
    (st.setRpcUrls p.nodeType newList).setActive p.nodeType
      (some ⟨(newList.getD randomIndex default).url, randomIndex⟩)

/-- Embeds one iteration of the `for (const node of nodes)` push loop of
`initCustomNodes`: a node of type NORMAL (resp. ARCHIVE) is pushed onto
`rpcUrls[NORMAL]` (resp. `rpcUrls[ARCHIVE]`) with zeroed metrics. -/
def pushCustomNode (st : LBState) (n : RpcNode) : LBState :=
  match n.type with
  | .NORMAL => st.setRpcUrls .NORMAL (st.rpcUrls .NORMAL ++ [toRpcStatus n])
  | .ARCHIVE => st.setRpcUrls .ARCHIVE (st.rpcUrls .ARCHIVE ++ [toRpcStatus n])

/-- Embeds `LoadBalancer.initCustomNodes` (Static mode): first the two
`initRemoteHosts` calls with `noSSRFCheck: true`, then the explicit push loop
over the same supplied nodes. `randNormal`/`randArchive` stand for the two
`Math.random()` draws inside `initRemoteHosts`. -/
def initCustomNodes (parseHostname : String → Option String) (st : LBState)
    (nodes : List RpcNode) (randNormal randArchive : Nat) : LBState :=
  let st1 := initRemoteHosts parseHostname st ⟨.NORMAL, nodes, true⟩ randNormal
  let st2 := initRemoteHosts parseHostname st1 ⟨.ARCHIVE, nodes, true⟩ randArchive
  nodes.foldl pushCustomNode st2

lemma rpcUrls_setRpcUrls_same (st : LBState) (k : RpcNodeType) (l : List RpcStatus) :
    (st.setRpcUrls k l).rpcUrls k = l := by
  cases k <;> rfl

lemma rpcUrls_setRpcUrls_other (st : LBState) (k k' : RpcNodeType) (l : List RpcStatus)
    (h : k' ≠ k) : (st.setRpcUrls k l).rpcUrls k' = st.rpcUrls k' := by
  cases k <;> cases k' <;> first | rfl | exact absurd rfl h

lemma rpcUrls_setActive (st : LBState) (k k' : RpcNodeType) (a : Option UrlIndex) :
    (st.setActive k a).rpcUrls k' = st.rpcUrls k' := by
  cases k <;> cases k' <;> rfl

lemma active_setActive_same (st : LBState) (k : RpcNodeType) (a : Option UrlIndex) :
    (st.setActive k a).active k = a := by
  cases k <;> rfl

lemma active_setActive_other (st : LBState) (k k' : RpcNodeType) (a : Option UrlIndex)
    (h : k' ≠ k) : (st.setActive k a).active k' = st.active k' := by
  cases k <;> cases k' <;> first | rfl | exact absurd rfl h

lemma active_setRpcUrls (st : LBState) (k k' : RpcNodeType) (l : List RpcStatus) :
    (st.setRpcUrls k l).active k' = st.active k' := by
  cases k <;> cases k' <;> rfl

/-- With `noSSRFCheck: true` the bootstrap filter keeps exactly the nodes of
the matching kind, whatever the URL parser does. -/
lemma remoteHostsFilter_noSSRF (parseHostname : String → Option String)
    (nodes : List RpcNode) (k : RpcNodeType) :
    remoteHostsFilter parseHostname ⟨k, nodes, true⟩
      = nodes.filter fun n => decide (n.type = k) := by
  simp [remoteHostsFilter]

/-- The list `initRemoteHosts` leaves in `rpcUrls[nodeType]`: the previous
entries followed by the admitted nodes. -/
lemma initRemoteHosts_rpcUrls_same (parseHostname : String → Option String)
    (st : LBState) (p : InitRemoteHostsParams) (r : Nat) :
    (initRemoteHosts parseHostname st p r).rpcUrls p.nodeType
      = st.rpcUrls p.nodeType ++ (remoteHostsFilter parseHostname p).map toRpcStatus := by
  simp only [initRemoteHosts]
  by_cases h : (remoteHostsFilter parseHostname p).isEmpty = true
  · simp [h, List.isEmpty_iff.mp h]
  · simp [h, rpcUrls_setActive, rpcUrls_setRpcUrls_same]

/-- `initRemoteHosts` does not touch the endpoint list of the other kind. -/
lemma initRemoteHosts_rpcUrls_other (parseHostname : String → Option String)
    (st : LBState) (p : InitRemoteHostsParams) (r : Nat) (k : RpcNodeType)
    (h : k ≠ p.nodeType) :
    (initRemoteHosts parseHostname st p r).rpcUrls k = st.rpcUrls k := by
  simp only [initRemoteHosts]
  by_cases he : (remoteHostsFilter parseHostname p).isEmpty = true
  · simp [he]
  · simp [he, rpcUrls_setActive, rpcUrls_setRpcUrls_other _ _ _ _ h]

/-- `initRemoteHosts` does not touch the active selection of the other kind. -/
lemma initRemoteHosts_active_other (parseHostname : String → Option String)
    (st : LBState) (p : InitRemoteHostsParams) (r : Nat) (k : RpcNodeType)
    (h : k ≠ p.nodeType) :
    (initRemoteHosts parseHostname st p r).active k = st.active k := by
  simp only [initRemoteHosts]
  by_cases he : (remoteHostsFilter parseHostname p).isEmpty = true
  · simp [he]
  · simp [he, active_setActive_other _ _ _ _ h, active_setRpcUrls]

/-- The push loop of `initCustomNodes` appends, per kind, exactly the
supplied nodes of that kind, in order. -/
lemma foldl_pushCustomNode_rpcUrls :
    ∀ (nodes : List RpcNode) (st : LBState) (k : RpcNodeType),
      (nodes.foldl pushCustomNode st).rpcUrls k
        = st.rpcUrls k ++ (nodes.filter fun n => decide (n.type = k)).map toRpcStatus := by
  intro nodes
  induction nodes with
  | nil => intro st k; simp
  | cons n ns ih =>
    intro st k
    simp only [List.foldl_cons, List.filter_cons]
    rw [ih]
    by_cases h : n.type = k
    · have hp : (pushCustomNode st n).rpcUrls k = st.rpcUrls k ++ [toRpcStatus n] := by
        cases hk : n.type <;> cases k <;>
          simp_all [pushCustomNode, LBState.setRpcUrls, LBState.rpcUrls]
      simp [h, hp]
    · have hp : (pushCustomNode st n).rpcUrls k = st.rpcUrls k := by
        cases hk : n.type <;> cases k <;>
          simp_all [pushCustomNode, LBState.setRpcUrls, LBState.rpcUrls]
      simp [h, hp]

/-- C4 counterexample: one supplied NORMAL node ends up registered twice in
`endpoints[NORMAL]` — once by the `initRemoteHosts` call with `noSSRFCheck`
and once by the explicit push loop of `initCustomNodes`. -/
theorem initCustomNodes_duplicate_counterexample :
    (initCustomNodes (fun _ => none) emptyState [⟨"u", .NORMAL⟩] 0 0).rpcUrls .NORMAL
      = [⟨"u", 0, 0, false⟩, ⟨"u", 0, 0, false⟩] := by decide

/-- C4 amended. In Static mode, starting from the empty registry, each kind
receives the supplied nodes of that kind twice over: the final
`endpoints[k]` is the list of matching nodes followed by a second copy of
the same list (first copy from the SSRF-bypassing `initRemoteHosts` call,
second from the push loop). -/
theorem initCustomNodes_registers_twice (parseHostname : String → Option String)
    (nodes : List RpcNode) (randNormal randArchive : Nat) (k : RpcNodeType) :
    (initCustomNodes parseHostname emptyState nodes randNormal randArchive).rpcUrls k
      = (nodes.filter fun n => decide (n.type = k)).map toRpcStatus
          ++ (nodes.filter fun n => decide (n.type = k)).map toRpcStatus := by
  unfold initCustomNodes
  rw [foldl_pushCustomNode_rpcUrls]
  cases k
  · rw [initRemoteHosts_rpcUrls_other _ _ _ _ _ (by simp),
      initRemoteHosts_rpcUrls_same, remoteHostsFilter_noSSRF]
    rfl
  · rw [initRemoteHosts_rpcUrls_same, remoteHostsFilter_noSSRF,
      initRemoteHosts_rpcUrls_other _ _ _ _ _ (by simp)]
    rfl

/-- C5. SSRF admission discipline of `initRemoteHosts`: without
`noSSRFCheck` (Remote mode), every record added to `rpcUrls[nodeType]` comes
from a supplied node of matching type whose parsed hostname ends with
`'rpc.tatum.io'`; a node whose URL does not parse is never admitted; the
other kind's list is untouched. With `noSSRFCheck` (Static mode), the filter
keeps exactly the nodes of matching type, with no SSRF condition. -/
theorem initRemoteHosts_ssrf (parseHostname : String → Option String) (st : LBState)
    (p : InitRemoteHostsParams) (r : Nat) (s : RpcStatus) (node : RpcNode)
    (k : RpcNodeType) :
    (p.noSSRFCheck = false → s ∈ (initRemoteHosts parseHostname st p r).rpcUrls p.nodeType →
      s ∈ st.rpcUrls p.nodeType ∨
        ∃ n ∈ p.nodes, s = toRpcStatus n ∧ n.type = p.nodeType ∧
          ∃ host, parseHostname n.url = some host ∧ strEndsWith host "rpc.tatum.io" = true) ∧
    (p.noSSRFCheck = false → parseHostname node.url = none →
      node ∉ remoteHostsFilter parseHostname p) ∧
    (k ≠ p.nodeType → (initRemoteHosts parseHostname st p r).rpcUrls k = st.rpcUrls k) ∧
    (p.noSSRFCheck = true →
      remoteHostsFilter parseHostname p
        = p.nodes.filter fun n => decide (n.type = p.nodeType)) := by
  refine ⟨?_, ?_, fun hk => initRemoteHosts_rpcUrls_other _ _ _ _ _ hk, ?_⟩
  · intro hs hmem
    rw [initRemoteHosts_rpcUrls_same] at hmem
    rcases List.mem_append.mp hmem with h | h
    · exact Or.inl h
    · right
      obtain ⟨n, hn, rfl⟩ := List.mem_map.mp h
      unfold remoteHostsFilter at hn
      have hf := List.mem_filter.mp hn
      have hf2 := hf.2
      rw [hs, if_neg (by simp)] at hf2
      obtain ⟨ht, hssrf⟩ := Bool.and_eq_true _ _ |>.mp hf2
      refine ⟨n, hf.1, rfl, of_decide_eq_true ht, ?_⟩
      unfold checkSSRF at hssrf
      cases hp : parseHostname n.url with
      | none => rw [hp] at hssrf; exact absurd hssrf (by simp)
      | some host => rw [hp] at hssrf; exact ⟨host, rfl, hssrf⟩
  · intro hs hnone hmem
    unfold remoteHostsFilter at hmem
    have hf := (List.mem_filter.mp hmem).2
    rw [hs, if_neg (by simp)] at hf
    have hssrf := (Bool.and_eq_true _ _ |>.mp hf).2
    unfold checkSSRF at hssrf
    rw [hnone] at hssrf
    exact absurd hssrf (by simp)
  · intro hs
    simp [remoteHostsFilter, hs]

/-- Witness for C5: with a parser mapping only the Tatum URL to a hostname,
the record admitted for `https://eth-mainnet.rpc.tatum.io` traces back to a
matching-type node with hostname suffix `rpc.tatum.io`, and`::bad::`
(unparseable) is rejected by the filter. -/
theorem initRemoteHosts_ssrf_witness :
    ((⟨"https://eth-mainnet.rpc.tatum.io", 0, 0, false⟩ : RpcStatus) ∈ emptyState.rpcUrls .NORMAL ∨
      ∃ n ∈ [(⟨"https://evil.com/rpc", .NORMAL⟩ : RpcNode),
             ⟨"https://eth-mainnet.rpc.tatum.io", .NORMAL⟩],
        (⟨"https://eth-mainnet.rpc.tatum.io", 0, 0, false⟩ : RpcStatus) = toRpcStatus n ∧
          n.type = RpcNodeType.NORMAL ∧
          ∃ host,
            (fun u =>
              if u = "https://eth-mainnet.rpc.tatum.io" then some "eth-mainnet.rpc.tatum.io"
              else if u = "https://evil.com/rpc" then some "evil.com"
              else (none : Option String)) n.url = some host ∧
              strEndsWith host "rpc.tatum.io" = true) ∧
    (⟨"::bad::", .NORMAL⟩ : RpcNode) ∉ remoteHostsFilter
      (fun u =>
        if u = "https://eth-mainnet.rpc.tatum.io" then some "eth-mainnet.rpc.tatum.io"
        else if u = "https://evil.com/rpc" then some "evil.com"
        else (none : Option String))
      ⟨.NORMAL, [⟨"::bad::", .NORMAL⟩], false⟩ := by
  constructor
  · exact (initRemoteHosts_ssrf
      (fun u =>
        if u = "https://eth-mainnet.rpc.tatum.io" then some "eth-mainnet.rpc.tatum.io"
        else if u = "https://evil.com/rpc" then some "evil.com"
        else (none : Option String))
      emptyState
      ⟨.NORMAL, [⟨"https://evil.com/rpc", .NORMAL⟩,
                 ⟨"https://eth-mainnet.rpc.tatum.io", .NORMAL⟩], false⟩
      0 ⟨"https://eth-mainnet.rpc.tatum.io", 0, 0, false⟩ ⟨"", .NORMAL⟩ .NORMAL).1
      rfl (by decide)
  · exact (initRemoteHosts_ssrf
      (fun u =>
        if u = "https://eth-mainnet.rpc.tatum.io" then some "eth-mainnet.rpc.tatum.io"
        else if u = "https://evil.com/rpc" then some "evil.com"
        else (none : Option String))
      emptyState ⟨.NORMAL, [⟨"::bad::", .NORMAL⟩], false⟩ 0 ⟨"", 0, 0, false⟩
      ⟨"::bad::", .NORMAL⟩ .NORMAL).2.1 rfl (by decide)

/-- C6. In the Selection Policy, a non-failed candidate whose `lastBlock`
exceeds the running winner's by strictly more than `allowedBlocksBehind`
replaces the winner, whatever both response times are; and on the concrete
registry `A(block 100), B(block 110)` with tolerance 5, selection returns
`B` at index 1 for every pair of response times. -/
theorem fasterBlock_beats_winner (allowed : Int) (w c : RpcStatus) (j i : Nat)
    (rtA rtB : Int) (hf : c.failed = false) (hb : allowed < c.lastBlock - w.lastBlock) :
    fastestStep allowed (some (w, j)) (i, c) = some (c, i) ∧
      getFastestServer [⟨"A", 100, rtA, false⟩, ⟨"B", 110, rtB, false⟩] 5
        = some (⟨"B", 110, rtB, false⟩, 1) := by
  constructor
  · have hfb : fasterBlockB allowed (some (w, j)) c = true := by
      simp only [fasterBlockB, decide_eq_true_eq]
      omega
    simp [fastestStep, hf, hfb]
  · have h100 : ((100 : Int) < 110 - 5) = True := by norm_num
    simp [getFastestServer, List.enum, List.enumFrom, fastestStep, fasterBlockB,
      sameBlockFasterB, h100]

/-- Witness for C6: the spec's "stale but fast loses" scenario,
`A(block 100, rt 20)`, `B(block 110, rt 200)`, tolerance 5. -/
theorem fasterBlock_beats_winner_witness :
    fastestStep 5 (some (⟨"A", 100, 20, false⟩, 0)) (1, ⟨"B", 110, 200, false⟩)
        = some (⟨"B", 110, 200, false⟩, 1) ∧
      getFastestServer [⟨"A", 100, 20, false⟩, ⟨"B", 110, 200, false⟩] 5
        = some (⟨"B", 110, 200, false⟩, 1) :=
  fasterBlock_beats_winner 5 ⟨"A", 100, 20, false⟩ ⟨"B", 110, 200, false⟩ 0 1 20 200
    rfl (by decide)

/-! ### Dispatcher: URL resolution, `handleFailedRpcCall`, `rawRpcCall` -/

/-- Embeds the JSON-RPC request envelope `JsonRpcCall`:
`{ jsonrpc, id, method, params }` (params are opaque to the core; a list of
strings here). -/
structure JsonRpcCall where
  jsonrpc : String
  id : Int
  method : String
  params : List String
deriving DecidableEq

/-- Embeds the JSON-RPC response as far as the core inspects it: only the
`result` field (absent or a number). The core returns responses otherwise
uninterpreted. -/
structure JsonRpcResponse where
  result : Option Int
deriving DecidableEq

/-- The error outcomes of the Dispatcher, tagged by throw site:
`noActiveNode` is the resolver's `'No active node found.'`;
`noActiveServerFound` is the `handleFailedRpcCall` rethrow after
`'No active server found'` (missing active index); `allNodesUnavailable` is
the rethrow after `'All RPC nodes are unavailable.'` (selection returned
`-1`). The last two carry the original transport error. -/
inductive LBError where
  | noActiveNode : LBError
  | noActiveServerFound : String → LBError
  | allNodesUnavailable : String → LBError
deriving DecidableEq

instance {ε α : Type} [DecidableEq ε] [DecidableEq α] : DecidableEq (Except ε α) := fun x y =>
  match x, y with
  | .ok a, .ok b =>
    if h : a = b then isTrue (by rw [h]) else isFalse (by intro hc; cases hc; exact h rfl)
  | .error a, .error b =>
    if h : a = b then isTrue (by rw [h]) else isFalse (by intro hc; cases hc; exact h rfl)
  | .ok _, .error _ => isFalse (by intro hc; cases hc)
  | .error _, .ok _ => isFalse (by intro hc; cases hc)

/-- JS truthiness of `activeUrl[kind]?.url`: the field must be present and a
non-empty string. -/
def truthyUrl : Option UrlIndex → Option String
  | none => none
  | some a => if a.url = "" then none else some a.url

/-- Embeds `getActiveArchiveUrlWithFallback`: ARCHIVE active first, NORMAL
active second, otherwise throw `'No active node found.'`. -/
def getActiveArchiveUrlWithFallback (st : LBState) : Except LBError (String × RpcNodeType) :=
  match truthyUrl st.activeArchive with
  | some u => .ok (u, .ARCHIVE)
  | none =>
    match truthyUrl st.activeNormal with
    | some u => .ok (u, .NORMAL)
    | none => .error .noActiveNode

/-- Embeds `getActiveNormalUrlWithFallback`: NORMAL active first, ARCHIVE
active second, otherwise throw `'No active node found.'`. -/
def getActiveNormalUrlWithFallback (st : LBState) : Except LBError (String × RpcNodeType) :=
  match truthyUrl st.activeNormal with
  | some u => .ok (u, .NORMAL)
  | none =>
    match truthyUrl st.activeArchive with
    | some u => .ok (u, .ARCHIVE)
    | none => .error .noActiveNode

/-- The URL resolution at the head of `rawRpcCall`: `archive ?
getActiveArchiveUrlWithFallback() : getActiveNormalUrlWithFallback()`. -/
def resolveUrl (st : LBState) (archive : Bool) : Except LBError (String × RpcNodeType) :=
  if archive then getActiveArchiveUrlWithFallback st else getActiveNormalUrlWithFallback st

/-- Embeds `servers[activeIndex].failed = true`: set the `failed` flag of the
entry at the given index (the index is always in range when the
registry–active invariant holds). -/
def markFailed : List RpcStatus → Nat → List RpcStatus
  | [], _ => []
  | s :: rest, 0 => { s with failed := true } :: rest
  | s :: rest, Nat.succ n => s :: markFailed rest n

/-- Embeds `LoadBalancer.handleFailedRpcCall`: read the active index of the
failing kind (rethrow `e` if unset), mark that endpoint failed, re-run the
Selection Policy on that same kind's list, rethrow `e` if it returns `-1`,
otherwise install the new winner as `activeUrl[kind]`. Errors carry the
state as mutated so far (the `failed` marking persists across the JS
throw). -/
def handleFailedRpcCall (allowed : Int) (st : LBState) (e : String) (k : RpcNodeType) :
    Except (LBError × LBState) LBState :=
  match st.active k with
  | none => .error (.noActiveServerFound e, st)
  | some a =>
    let servers := markFailed (st.rpcUrls k) a.index
    let st1 := st.setRpcUrls k servers
    match getFastestServer servers allowed with
    | none => .error (.allNodesUnavailable e, st1)
    | some (w, i) => .ok (st1.setActive k (some ⟨w.url, i⟩))

/-- Embeds `LoadBalancer.rawRpcCall`, indexed by fuel to make the unbounded
retry recursion a total function (`none` = fuel ran out; every claim is
settled at sufficient fuel). `outcome` stands for the HTTP transport
`connector.rpcCall(url, rpcCall)`: `ok` a response, `error` the thrown
transport error. The recursive retry is `this.rawRpcCall(rpcCall)` — with no
second argument, so the retry's `archive` is `undefined`, i.e. `false`. -/
def rawRpcCallF (outcome : String → JsonRpcCall → Except String JsonRpcResponse)
    (allowed : Int) :
    Nat → LBState → JsonRpcCall → Bool →
      Option (Except (LBError × LBState) (LBState × JsonRpcResponse))
  | 0, _, _, _ => none
  | fuel + 1, st, rpcCall, archive =>
    match resolveUrl st archive with
    | .error err => some (.error (err, st))
    | .ok (url, kind) =>
      match outcome url rpcCall with
      | .ok resp => some (.ok (st, resp))
      | .error e =>
        match handleFailedRpcCall allowed st e kind with
        | .error es => some (.error es)
        | .ok st2 => rawRpcCallF outcome allowed fuel st2 rpcCall false

/-- C7. URL resolution of the Dispatcher: with `archive` set, the ARCHIVE
active URL wins and the NORMAL active URL is the fallback; with `archive`
unset the mirror image; and when neither kind has an active URL, a call
fails with `NoActiveNode` before any endpoint is contacted (the result does
not depend on the transport at all). -/
theorem rawRpcCall_resolution (st : LBState) (u v : String) :
    (truthyUrl st.activeArchive = some u → resolveUrl st true = .ok (u, .ARCHIVE)) ∧
    (truthyUrl st.activeArchive = none → truthyUrl st.activeNormal = some v →
      resolveUrl st true = .ok (v, .NORMAL)) ∧
    (truthyUrl st.activeNormal = some v → resolveUrl st false = .ok (v, .NORMAL)) ∧
    (truthyUrl st.activeNormal = none → truthyUrl st.activeArchive = some u →
      resolveUrl st false = .ok (u, .ARCHIVE)) ∧
    (truthyUrl st.activeNormal = none → truthyUrl st.activeArchive = none →
      ∀ (outcome : String → JsonRpcCall → Except String JsonRpcResponse)
        (allowed : Int) (fuel : Nat) (rpcCall : JsonRpcCall) (archive : Bool),
        rawRpcCallF outcome allowed (fuel + 1) st rpcCall archive
          = some (.error (.noActiveNode, st))) := by
  refine ⟨?_, ?_, ?_, ?_, ?_⟩
  · intro h
    simp [resolveUrl, getActiveArchiveUrlWithFallback, h]
  · intro h1 h2
    simp [resolveUrl, getActiveArchiveUrlWithFallback, h1, h2]
  · intro h
    simp [resolveUrl, getActiveNormalUrlWithFallback, h]
  · intro h1 h2
    simp [resolveUrl, getActiveNormalUrlWithFallback, h1, h2]
  · intro h1 h2 outcome allowed fuel rpcCall archive
    have hres : resolveUrl st archive = .error .noActiveNode := by
      cases archive <;>
        simp [resolveUrl, getActiveNormalUrlWithFallback, getActiveArchiveUrlWithFallback,
          h1, h2]
    simp [rawRpcCallF, hres]

/-- Witness for C7: a registry with ARCHIVE active `"x"` and NORMAL active
`"n"` resolves archive-first to `"x"`; one with neither active fails with
`NoActiveNode` whatever the transport would answer. -/
theorem rawRpcCall_resolution_witness :
    resolveUrl ⟨[⟨"n", 0, 0, false⟩], [⟨"x", 0, 0, false⟩],
      some ⟨"n", 0⟩, some ⟨"x", 0⟩⟩ true = .ok ("x", .ARCHIVE) ∧
    rawRpcCallF (fun _ _ => .ok ⟨some 1⟩) 0 1 emptyState ⟨"2.0", 1, "eth_blockNumber", []⟩ false
      = some (.error (.noActiveNode, emptyState)) := by
  constructor
  · exact (rawRpcCall_resolution
      ⟨[⟨"n", 0, 0, false⟩], [⟨"x", 0, 0, false⟩], some ⟨"n", 0⟩, some ⟨"x", 0⟩⟩
      "x" "n").1 (by decide)
  · exact (rawRpcCall_resolution emptyState "" "").2.2.2.2
      rfl rfl (fun _ _ => .ok ⟨some 1⟩) 0 0 ⟨"2.0", 1, "eth_blockNumber", []⟩ false

/-- Once the fold's accumulator holds a winner it never returns to the
synthetic initial state. -/
lemma foldl_fastest_isSome (allowed : Int) :
    ∀ (l : List (Nat × RpcStatus)) (p : RpcStatus × Nat),
      l.foldl (fastestStep allowed) (some p) ≠ none := by
  intro l
  induction l with
  | nil => intro p h; exact Option.noConfusion h
  | cons x xs ih =>
    intro p h
    rcases fastestStep_cases allowed (some p) x with hc | ⟨hc, _⟩
    · rw [List.foldl_cons, hc] at h; exact ih p h
    · rw [List.foldl_cons, hc] at h; exact ih _ h

lemma foldl_fastest_none_iff (allowed : Int) :
    ∀ (l : List RpcStatus) (n : Nat),
      (l.enumFrom n).foldl (fastestStep allowed) none = none ↔ ∀ s ∈ l, s.failed = true := by
  intro l
  induction l with
  | nil => intro n; simp [List.enumFrom]
  | cons x xs ih =>
    intro n
    simp only [List.enumFrom, List.foldl_cons]
    by_cases hx : x.failed = true
    · have hstep : fastestStep allowed none (n, x) = none := by
        simp [fastestStep, hx]
      rw [hstep, ih (n + 1)]
      constructor
      · intro h s hs
        rcases List.mem_cons.mp hs with rfl | hs'
        · exact hx
        · exact h s hs'
      · intro h s hs
        exact h s (List.mem_cons_of_mem _ hs)
    · have hstep : fastestStep allowed none (n, x) = some (x, n) := by
        simp [fastestStep, fasterBlockB, hx]
      rw [hstep]
      constructor
      · intro h
        exact absurd h (foldl_fastest_isSome allowed _ _)
      · intro h
        exact absurd (h x (List.mem_cons_self x xs)) hx

/-- The Selection Policy returns the JS index `-1` exactly when every server
of the examined list is failed. -/
lemma getFastestServer_none_iff (l : List RpcStatus) (allowed : Int) :
    getFastestServer l allowed = none ↔ ∀ s ∈ l, s.failed = true := by
  unfold getFastestServer
  exact foldl_fastest_none_iff allowed l 0

/-- C2 counterexample: registry with one NORMAL endpoint `"n"` (active) and
one ARCHIVE endpoint `"b"` (active, not failed). A call with `archive`
unset whose transport fails on `"n"` raises the pool-exhaustion error even
though the ARCHIVE endpoint `"b"` is still not failed: `handleFailedRpcCall`
re-selects only within the failing kind and never consults the other pool. -/
theorem rawRpcCall_exhaustion_counterexample :
    rawRpcCallF (fun url _ => if url = "n" then .error "boom" else .ok ⟨some 1⟩) 0 2
        ⟨[⟨"n", 10, 10, false⟩], [⟨"b", 10, 10, false⟩], some ⟨"n", 0⟩, some ⟨"b", 0⟩⟩
        ⟨"2.0", 1, "eth_blockNumber", []⟩ false
      = some (.error (.allNodesUnavailable "boom",
          ⟨[⟨"n", 10, 10, true⟩], [⟨"b", 10, 10, false⟩], some ⟨"n", 0⟩, some ⟨"b", 0⟩⟩)) ∧
    ((⟨[⟨"n", 10, 10, true⟩], [⟨"b", 10, 10, false⟩], some ⟨"n", 0⟩,
        some ⟨"b", 0⟩⟩ : LBState).rpcUrlsArchive.getD 0 default).failed = false := by
  decide

/-- C2 amended. The pool-exhaustion rethrow of `handleFailedRpcCall` happens
exactly when, after marking the active endpoint of the failing kind, every
endpoint of that one kind is failed — the other kind's pool is never
consulted; and `rawRpcCall` surfaces that error to the caller instead of
retrying. -/
theorem allNodesUnavailable_iff_kind_exhausted (allowed : Int) (st : LBState)
    (e : String) (k : RpcNodeType) (a : UrlIndex)
    (outcome : String → JsonRpcCall → Except String JsonRpcResponse)
    (fuel : Nat) (rpcCall : JsonRpcCall) (archive : Bool) (url : String) :
    (st.active k = some a →
      ((∃ st', handleFailedRpcCall allowed st e k = .error (.allNodesUnavailable e, st')) ↔
        ∀ s ∈ markFailed (st.rpcUrls k) a.index, s.failed = true)) ∧
    (resolveUrl st archive = .ok (url, k) → outcome url rpcCall = .error e →
      ∀ es, handleFailedRpcCall allowed st e k = .error es →
        rawRpcCallF outcome allowed (fuel + 1) st rpcCall archive = some (.error es)) := by
  constructor
  · intro ha
    unfold handleFailedRpcCall
    rw [ha]
    simp only
    cases hgf : getFastestServer (markFailed (st.rpcUrls k) a.index) allowed with
    | none =>
      simp only [hgf]
      constructor
      · intro _
        exact (getFastestServer_none_iff _ allowed).mp hgf
      · intro _
        exact ⟨_, rfl⟩
    | some p =>
      simp only [hgf]
      constructor
      · rintro ⟨st', h⟩
        cases p
        exact Except.noConfusion h
      · intro h
        rw [(getFastestServer_none_iff _ allowed).mpr h] at hgf
        exact absurd hgf (by simp)
  · intro h1 h2 es h3
    simp [rawRpcCallF, h1, h2, h3]

/-- Witness for C2 amended: on the counterexample registry, exhausting the
NORMAL pool makes `handleFailedRpcCall` rethrow, and `rawRpcCall` surfaces
exactly that error. -/
theorem allNodesUnavailable_iff_kind_exhausted_witness :
    ((∃ st', handleFailedRpcCall 0
        ⟨[⟨"n", 10, 10, false⟩], [⟨"b", 10, 10, false⟩], some ⟨"n", 0⟩, some ⟨"b", 0⟩⟩
        "boom" .NORMAL = .error (.allNodesUnavailable "boom", st')) ↔
      ∀ s ∈ markFailed ((⟨[⟨"n", 10, 10, false⟩], [⟨"b", 10, 10, false⟩],
          some ⟨"n", 0⟩, some ⟨"b", 0⟩⟩ : LBState).rpcUrls .NORMAL) 0,
        s.failed = true) ∧
    rawRpcCallF (fun url _ => if url = "n" then .error "boom" else .ok ⟨some 1⟩) 0 3
        ⟨[⟨"n", 10, 10, false⟩], [⟨"b", 10, 10, false⟩], some ⟨"n", 0⟩, some ⟨"b", 0⟩⟩
        ⟨"2.0", 1, "eth_blockNumber", []⟩ false
      = some (.error (.allNodesUnavailable "boom",
          ⟨[⟨"n", 10, 10, true⟩], [⟨"b", 10, 10, false⟩], some ⟨"n", 0⟩, some ⟨"b", 0⟩⟩)) := by
  constructor
  · exact (allNodesUnavailable_iff_kind_exhausted 0
      ⟨[⟨"n", 10, 10, false⟩], [⟨"b", 10, 10, false⟩], some ⟨"n", 0⟩, some ⟨"b", 0⟩⟩
      "boom" .NORMAL ⟨"n", 0⟩
      (fun url _ => if url = "n" then .error "boom" else .ok ⟨some 1⟩)
      0 ⟨"2.0", 1, "eth_blockNumber", []⟩ false "n").1 rfl
  · exact (allNodesUnavailable_iff_kind_exhausted 0
      ⟨[⟨"n", 10, 10, false⟩], [⟨"b", 10, 10, false⟩], some ⟨"n", 0⟩, some ⟨"b", 0⟩⟩
      "boom" .NORMAL ⟨"n", 0⟩
      (fun url _ => if url = "n" then .error "boom" else .ok ⟨some 1⟩)
      2 ⟨"2.0", 1, "eth_blockNumber", []⟩ false "n").2 (by decide) (by decide) _ (by decide)

/-- C3 counterexample: a call with `archive == true` whose first (ARCHIVE)
attempt fails retries and is then served by the NORMAL endpoint `"n"`
(response `111`), even though a fresh ARCHIVE active `"y"` is installed and
would have answered `222`: the retry does not resolve ARCHIVE-first. -/
theorem rawRpcCall_archive_retry_counterexample :
    rawRpcCallF
        (fun url _ => if url = "x" then .error "down"
          else if url = "y" then .ok ⟨some 222⟩ else .ok ⟨some 111⟩) 0 2
        ⟨[⟨"n", 10, 10, false⟩], [⟨"x", 10, 10, false⟩, ⟨"y", 20, 10, false⟩],
          some ⟨"n", 0⟩, some ⟨"x", 0⟩⟩
        ⟨"2.0", 1, "eth_blockNumber", []⟩ true
      = some (.ok (⟨[⟨"n", 10, 10, false⟩], [⟨"x", 10, 10, true⟩, ⟨"y", 20, 10, false⟩],
          some ⟨"n", 0⟩, some ⟨"y", 1⟩⟩, ⟨some 111⟩)) ∧
    truthyUrl (⟨[⟨"n", 10, 10, false⟩], [⟨"x", 10, 10, true⟩, ⟨"y", 20, 10, false⟩],
        some ⟨"n", 0⟩, some ⟨"y", 1⟩⟩ : LBState).activeArchive = some "y" ∧
    (fun url _ => if url = "x" then .error "down"
        else if url = "y" then .ok ⟨some 222⟩ else .ok ⟨some 111⟩ :
          String → JsonRpcCall → Except String JsonRpcResponse)
        "y" ⟨"2.0", 1, "eth_blockNumber", []⟩
      = .ok ⟨some 222⟩ := by
  decide

/-- C3 amended. On a transport failure, the retry recursion of `rawRpcCall`
re-invokes itself with the same request but with no `archive` argument: the
retry runs with `archive` unset (NORMAL-first resolution) regardless of the
original call's flag. -/
theorem rawRpcCall_retry_drops_archive
    (outcome : String → JsonRpcCall → Except String JsonRpcResponse)
    (allowed : Int) (fuel : Nat) (st st2 : LBState) (rpcCall : JsonRpcCall)
    (archive : Bool) (url : String) (kind : RpcNodeType) (e : String)
    (h1 : resolveUrl st archive = .ok (url, kind))
    (h2 : outcome url rpcCall = .error e)
    (h3 : handleFailedRpcCall allowed st e kind = .ok st2) :
    rawRpcCallF outcome allowed (fuel + 1) st rpcCall archive
      = rawRpcCallF outcome allowed fuel st2 rpcCall false := by
  simp [rawRpcCallF, h1, h2, h3]

/-- Witness for C3 amended: the counterexample run's first step rewrites to
a retry on the updated state with `archive := false`. -/
theorem rawRpcCall_retry_drops_archive_witness :
    rawRpcCallF
        (fun url _ => if url = "x" then .error "down"
          else if url = "y" then .ok ⟨some 222⟩ else .ok ⟨some 111⟩) 0 2
        ⟨[⟨"n", 10, 10, false⟩], [⟨"x", 10, 10, false⟩, ⟨"y", 20, 10, false⟩],
          some ⟨"n", 0⟩, some ⟨"x", 0⟩⟩
        ⟨"2.0", 1, "eth_blockNumber", []⟩ true
      = rawRpcCallF
          (fun url _ => if url = "x" then .error "down"
            else if url = "y" then .ok ⟨some 222⟩ else .ok ⟨some 111⟩) 0 1
          ⟨[⟨"n", 10, 10, false⟩], [⟨"x", 10, 10, true⟩, ⟨"y", 20, 10, false⟩],
            some ⟨"n", 0⟩, some ⟨"y", 1⟩⟩
          ⟨"2.0", 1, "eth_blockNumber", []⟩ false :=
  rawRpcCall_retry_drops_archive
    (fun url _ => if url = "x" then .error "down"
      else if url = "y" then .ok ⟨some 222⟩ else .ok ⟨some 111⟩)
    0 1
    ⟨[⟨"n", 10, 10, false⟩], [⟨"x", 10, 10, false⟩, ⟨"y", 20, 10, false⟩],
      some ⟨"n", 0⟩, some ⟨"x", 0⟩⟩
    ⟨[⟨"n", 10, 10, false⟩], [⟨"x", 10, 10, true⟩, ⟨"y", 20, 10, false⟩],
      some ⟨"n", 0⟩, some ⟨"y", 1⟩⟩
    ⟨"2.0", 1, "eth_blockNumber", []⟩ true "x" .ARCHIVE "down"
    (by decide) (by decide) (by decide)

/-! ### Registry–active consistency (C9) and failover postconditions (C10) -/

/-- Embeds the selection tail of `LoadBalancer.checkStatus`: after the probe
promises settle — leaving `probed` as the kind's node list, with every `url`
unchanged (probes write only `lastBlock`, `lastResponseTime`, `failed`) —
run the Selection Policy and, when it returns a winner (`index !== -1`),
install it as `activeUrl[nodeType]`; otherwise leave the active untouched. -/
def checkStatusSelect (allowed : Int) (st : LBState) (k : RpcNodeType)
    (probed : List RpcStatus) : LBState :=
  let st1 := st.setRpcUrls k probed
  match getFastestServer probed allowed with
  | some (w, i) => st1.setActive k (some ⟨w.url, i⟩)
  | none => st1

/-- The registry–active consistency for one kind: an active selection, when
present, indexes its own url in the endpoint list. -/
def activeConsistent (l : List RpcStatus) : Option UrlIndex → Prop
  | none => True
  | some a => a.index < l.length ∧ (l.getD a.index default).url = a.url

instance (l : List RpcStatus) (o : Option UrlIndex) : Decidable (activeConsistent l o) :=
  match o with
  | none => isTrue trivial
  | some _ => inferInstanceAs (Decidable (_ ∧ _))

/-- Invariant 1 of the spec: for each kind `k`, if `active[k]` is non-empty
then `endpoints[k][active[k].index].url == active[k].url`. -/
def registryActiveInv (st : LBState) : Prop :=
  activeConsistent (st.rpcUrls .NORMAL) (st.active .NORMAL) ∧
    activeConsistent (st.rpcUrls .ARCHIVE) (st.active .ARCHIVE)

instance (st : LBState) : Decidable (registryActiveInv st) :=
  inferInstanceAs (Decidable (_ ∧ _))

lemma registryActiveInv_forall (st : LBState) :
    registryActiveInv st ↔ ∀ k, activeConsistent (st.rpcUrls k) (st.active k) := by
  constructor
  · rintro ⟨h1, h2⟩ k
    cases k
    · exact h1
    · exact h2
  · intro h
    exact ⟨h .NORMAL, h .ARCHIVE⟩

lemma markFailed_length : ∀ (l : List RpcStatus) (i : Nat),
    (markFailed l i).length = l.length := by
  intro l
  induction l with
  | nil => intro i; rfl
  | cons x xs ih =>
    intro i
    cases i with
    | zero => simp [markFailed]
    | succ n => simp [markFailed, ih n]

lemma markFailed_getD_url : ∀ (l : List RpcStatus) (i j : Nat),
    ((markFailed l i).getD j default).url = (l.getD j default).url := by
  intro l
  induction l with
  | nil => intro i j; rfl
  | cons x xs ih =>
    intro i j
    cases i with
    | zero =>
      cases j with
      | zero => rfl
      | succ m => simp [markFailed]
    | succ n =>
      cases j with
      | zero => rfl
      | succ m => simpa [markFailed] using ih n m

lemma markFailed_getD_failed (l : List RpcStatus) (i : Nat) (h : i < l.length) :
    ((markFailed l i).getD i default).failed = true := by
  induction l generalizing i with
  | nil => simp at h
  | cons x xs ih =>
    cases i with
    | zero => rfl
    | succ n => simpa [markFailed] using ih n (by simpa using h)

lemma map_url_getD : ∀ (l1 l2 : List RpcStatus),
    l1.map RpcStatus.url = l2.map RpcStatus.url →
    ∀ j, (l1.getD j default).url = (l2.getD j default).url := by
  intro l1
  induction l1 with
  | nil =>
    intro l2 h j
    cases l2 with
    | nil => rfl
    | cons y ys => simp at h
  | cons x xs ih =>
    intro l2 h j
    cases l2 with
    | nil => simp at h
    | cons y ys =>
      simp only [List.map_cons, List.cons.injEq] at h
      cases j with
      | zero => simpa using h.1
      | succ n => simpa using ih ys h.2 n

/-- `initRemoteHosts` sets the active selection of its kind to the random
index of the grown list (when anything was admitted). -/
lemma initRemoteHosts_active_same (parseHostname : String → Option String)
    (st : LBState) (p : InitRemoteHostsParams) (r : Nat) :
    (initRemoteHosts parseHostname st p r).active p.nodeType
      = if (remoteHostsFilter parseHostname p).isEmpty then st.active p.nodeType
        else some ⟨((st.rpcUrls p.nodeType
              ++ (remoteHostsFilter parseHostname p).map toRpcStatus).getD r default).url, r⟩ := by
  simp only [initRemoteHosts]
  by_cases he : (remoteHostsFilter parseHostname p).isEmpty = true
  · simp [he]
  · simp [he, active_setActive_same]

/-- C9. Every writer of `active[k]` preserves the registry–active
consistency invariant: the bootstrap's random initial selection
(`initRemoteHosts`, whose random index is within the grown list), the probe
pass's re-selection (`checkStatus`, whose probe step rewrites metrics but
no `url`), and the Dispatcher's failover (`handleFailedRpcCall`, on both its
normal and its throwing exits). -/
theorem registry_active_consistency (parseHostname : String → Option String)
    (st : LBState) (p : InitRemoteHostsParams) (r : Nat) (allowed : Int)
    (k : RpcNodeType) (probed : List RpcStatus) (e : String) :
    (registryActiveInv st →
      (remoteHostsFilter parseHostname p ≠ [] →
        r < (st.rpcUrls p.nodeType
              ++ (remoteHostsFilter parseHostname p).map toRpcStatus).length) →
      registryActiveInv (initRemoteHosts parseHostname st p r)) ∧
    (registryActiveInv st →
      probed.map RpcStatus.url = (st.rpcUrls k).map RpcStatus.url →
      registryActiveInv (checkStatusSelect allowed st k probed)) ∧
    (registryActiveInv st →
      (∀ st2, handleFailedRpcCall allowed st e k = .ok st2 → registryActiveInv st2) ∧
      (∀ err st', handleFailedRpcCall allowed st e k = .error (err, st') →
        registryActiveInv st')) := by
  refine ⟨?_, ?_, ?_⟩
  · intro hinv hr
    have hforall := (registryActiveInv_forall st).mp hinv
    rw [registryActiveInv_forall]
    intro k'
    by_cases hk : k' = p.nodeType
    · rw [hk, initRemoteHosts_rpcUrls_same, initRemoteHosts_active_same]
      by_cases he : (remoteHostsFilter parseHostname p).isEmpty = true
      · rw [if_pos he]
        have hnil : remoteHostsFilter parseHostname p = [] := List.isEmpty_iff.mp he
        rw [hnil]
        simpa using hforall p.nodeType
      · rw [if_neg he]
        have hne : remoteHostsFilter parseHostname p ≠ [] := fun hh => he (by simp [hh])
        exact ⟨hr hne, rfl⟩
    · rw [initRemoteHosts_rpcUrls_other _ _ _ _ _ hk, initRemoteHosts_active_other _ _ _ _ _ hk]
      exact hforall k'
  · intro hinv hmap
    have hforall := (registryActiveInv_forall st).mp hinv
    rw [registryActiveInv_forall]
    intro k'
    cases hgf : getFastestServer probed allowed with
    | some pr =>
      obtain ⟨w, i⟩ := pr
      simp only [checkStatusSelect, hgf]
      by_cases hk : k' = k
      · rw [hk, rpcUrls_setActive, rpcUrls_setRpcUrls_same, active_setActive_same]
        obtain ⟨h1, h2, _⟩ := getFastestServer_never_failed probed allowed w i hgf
        exact ⟨h1, by rw [h2]⟩
      · rw [rpcUrls_setActive, rpcUrls_setRpcUrls_other _ _ _ _ hk,
          active_setActive_other _ _ _ _ hk, active_setRpcUrls]
        exact hforall k'
    | none =>
      simp only [checkStatusSelect, hgf]
      by_cases hk : k' = k
      · rw [hk, rpcUrls_setRpcUrls_same, active_setRpcUrls]
        cases ha : st.active k with
        | none => trivial
        | some a =>
          have hc := hforall k
          rw [ha] at hc
          obtain ⟨h1, h2⟩ := hc
          have hlen : probed.length = (st.rpcUrls k).length := by
            have := congrArg List.length hmap
            simpa using this
          refine ⟨by omega, ?_⟩
          rw [map_url_getD probed (st.rpcUrls k) hmap a.index]
          exact h2
      · rw [rpcUrls_setRpcUrls_other _ _ _ _ hk, active_setRpcUrls]
        exact hforall k'
  · intro hinv
    have hforall := (registryActiveInv_forall st).mp hinv
    constructor
    · intro st2 h2
      unfold handleFailedRpcCall at h2
      cases ha : st.active k with
      | none => simp only [ha] at h2; exact Except.noConfusion h2
      | some a =>
        simp only [ha] at h2
        cases hgf : getFastestServer (markFailed (st.rpcUrls k) a.index) allowed with
        | none => simp only [hgf] at h2; exact Except.noConfusion h2
        | some pr =>
          obtain ⟨w, i⟩ := pr
          simp only [hgf] at h2
          injection h2 with h2'
          rw [← h2', registryActiveInv_forall]
          intro k'
          by_cases hk : k' = k
          · rw [hk, rpcUrls_setActive, rpcUrls_setRpcUrls_same, active_setActive_same]
            obtain ⟨hh1, hh2, _⟩ := getFastestServer_never_failed _ allowed w i hgf
            exact ⟨hh1, by rw [hh2]⟩
          · rw [rpcUrls_setActive, rpcUrls_setRpcUrls_other _ _ _ _ hk,
              active_setActive_other _ _ _ _ hk, active_setRpcUrls]
            exact hforall k'
    · intro err st' h2
      unfold handleFailedRpcCall at h2
      cases ha : st.active k with
      | none =>
        simp only [ha] at h2
        injection h2 with h3
        injection h3 with h4 h5
        rw [← h5]
        exact hinv
      | some a =>
        simp only [ha] at h2
        cases hgf : getFastestServer (markFailed (st.rpcUrls k) a.index) allowed with
        | some pr =>
          obtain ⟨w, i⟩ := pr
          simp only [hgf] at h2
          exact Except.noConfusion h2
        | none =>
          simp only [hgf] at h2
          injection h2 with h3
          injection h3 with h4 h5
          rw [← h5, registryActiveInv_forall]
          intro k'
          by_cases hk : k' = k
          · rw [hk, rpcUrls_setRpcUrls_same, active_setRpcUrls, ha]
            have hc := hforall k
            rw [ha] at hc
            obtain ⟨h1, h2'⟩ := hc
            refine ⟨by rw [markFailed_length]; exact h1, ?_⟩
            rw [markFailed_getD_url]
            exact h2'
          · rw [rpcUrls_setRpcUrls_other _ _ _ _ hk, active_setRpcUrls]
            exact hforall k'

/-- Witness for C9: on a concrete two-endpoint NORMAL registry satisfying
the invariant, the failover write keeps the invariant. -/
theorem registry_active_consistency_witness :
    registryActiveInv
      ⟨[⟨"a", 5, 10, true⟩, ⟨"b", 5, 20, false⟩], [], some ⟨"b", 1⟩, none⟩ :=
  ((registry_active_consistency (fun _ => none)
      ⟨[⟨"a", 5, 10, false⟩, ⟨"b", 5, 20, false⟩], [], some ⟨"a", 0⟩, none⟩
      ⟨.NORMAL, [], true⟩ 0 0 .NORMAL [] "err").2.2 (by decide)).1
    ⟨[⟨"a", 5, 10, true⟩, ⟨"b", 5, 20, false⟩], [], some ⟨"b", 1⟩, none⟩ (by decide)

/-- C10. When `handleFailedRpcCall` returns normally, the endpoint that was
active for the failing kind has been marked `failed`, and the new
`active[kind]` points at a different, in-range index whose endpoint is not
failed. When it throws — missing active index or selection returning `-1` —
`active[kind]` is left unchanged. -/
theorem handleFailedRpcCall_failover (allowed : Int) (st : LBState) (e : String)
    (k : RpcNodeType) (a : UrlIndex) :
    (st.active k = some a → a.index < (st.rpcUrls k).length →
      ∀ st2, handleFailedRpcCall allowed st e k = .ok st2 →
        ((st2.rpcUrls k).getD a.index default).failed = true ∧
          ∃ b, st2.active k = some b ∧ b.index ≠ a.index ∧
            b.index < (st2.rpcUrls k).length ∧
            ((st2.rpcUrls k).getD b.index default).failed = false) ∧
    (∀ err st', handleFailedRpcCall allowed st e k = .error (err, st') →
      st'.active k = st.active k) := by
  constructor
  · intro ha hlen st2 h2
    unfold handleFailedRpcCall at h2
    simp only [ha] at h2
    cases hgf : getFastestServer (markFailed (st.rpcUrls k) a.index) allowed with
    | none => simp only [hgf] at h2; exact Except.noConfusion h2
    | some pr =>
      obtain ⟨w, i⟩ := pr
      simp only [hgf] at h2
      injection h2 with h2'
      rw [← h2', rpcUrls_setActive, rpcUrls_setRpcUrls_same, active_setActive_same]
      obtain ⟨hw1, hw2, hw3⟩ := getFastestServer_never_failed _ allowed w i hgf
      refine ⟨markFailed_getD_failed (st.rpcUrls k) a.index hlen, ⟨w.url, i⟩, rfl, ?_, hw1, ?_⟩
      · intro hcontra
        have hci : i = a.index := hcontra
        rw [hci] at hw2
        have hmark := markFailed_getD_failed (st.rpcUrls k) a.index hlen
        rw [hw2] at hmark
        rw [hmark] at hw3
        exact Bool.noConfusion hw3
      · rw [hw2]
        exact hw3
  · intro err st' h2
    unfold handleFailedRpcCall at h2
    cases ha' : st.active k with
    | none =>
      simp only [ha'] at h2
      injection h2 with h3
      injection h3 with h4 h5
      rw [← h5]
      exact ha'
    | some a' =>
      simp only [ha'] at h2
      cases hgf : getFastestServer (markFailed (st.rpcUrls k) a'.index) allowed with
      | some pr =>
        obtain ⟨w, i⟩ := pr
        simp only [hgf] at h2
        exact Except.noConfusion h2
      | none =>
        simp only [hgf] at h2
        injection h2 with h3
        injection h3 with h4 h5
        rw [← h5, active_setRpcUrls]
        exact ha'

/-- Witness for C10: on the registry `[a (active), b]`, a failing call marks
`a` failed and moves the active selection to the non-failed `b` at the other
index. -/
theorem handleFailedRpcCall_failover_witness :
    (((⟨[⟨"a", 5, 10, true⟩, ⟨"b", 5, 20, false⟩], [], some ⟨"b", 1⟩,
          none⟩ : LBState).rpcUrls .NORMAL).getD 0 default).failed = true ∧
      ∃ b, (⟨[⟨"a", 5, 10, true⟩, ⟨"b", 5, 20, false⟩], [], some ⟨"b", 1⟩,
          none⟩ : LBState).active .NORMAL = some b ∧ b.index ≠ 0 ∧
        b.index < (((⟨[⟨"a", 5, 10, true⟩, ⟨"b", 5, 20, false⟩], [], some ⟨"b", 1⟩,
            none⟩ : LBState)).rpcUrls .NORMAL).length ∧
        ((((⟨[⟨"a", 5, 10, true⟩, ⟨"b", 5, 20, false⟩], [], some ⟨"b", 1⟩,
            none⟩ : LBState)).rpcUrls .NORMAL).getD b.index default).failed = false :=
  (handleFailedRpcCall_failover 0
      ⟨[⟨"a", 5, 10, false⟩, ⟨"b", 5, 20, false⟩], [], some ⟨"a", 0⟩, none⟩
      "err" .NORMAL ⟨"a", 0⟩).1 rfl (by decide)
    ⟨[⟨"a", 5, 10, true⟩, ⟨"b", 5, 20, false⟩], [], some ⟨"b", 1⟩, none⟩ (by decide)

/-! ### Status Payload Codec (`Utils.getStatusPayload` / `Utils.parseStatusPayload`) -/

/-- Modelled from the spec: the `Network` enumeration's classification by
family ("each classified by family"; the codec section distinguishes the
UTXO family, the EVM family, Tron, and other families). The concrete
network lists behind `isUtxoBasedNetwork`, `isEvmBasedNetwork` and
`isTronNetwork` live in the repository's `dto` module, which is not among
the sources here; the spec — and the disjoint guards in `Utils.getRpc` and
`Utils.getStatusPayload` (`isEvmBasedNetwork(network) ||
isTronNetwork(network)`) — treat these families as mutually exclusive, so a
network is embedded by its family. -/
inductive NetworkFamily where
  | utxo : NetworkFamily
  | evm : NetworkFamily
  | tron : NetworkFamily
  | other : NetworkFamily
deriving DecidableEq

/-- Modelled from the spec: `isUtxoBasedNetwork` holds exactly of the UTXO
family. -/
def isUtxoBasedNetwork (f : NetworkFamily) : Bool := f = NetworkFamily.utxo

/-- Modelled from the spec: `isEvmBasedNetwork` holds exactly of the EVM
family (Tron is its own family). -/
def isEvmBasedNetwork (f : NetworkFamily) : Bool := f = NetworkFamily.evm

/-- Modelled from the spec: `isTronNetwork` holds exactly of the Tron
family. -/
def isTronNetwork (f : NetworkFamily) : Bool := f = NetworkFamily.tron

/-- Embeds `Utils.getStatusPayload`: UTXO networks probe with
`getblockcount`, EVM and Tron networks with `eth_blockNumber`, and any
other network throws `Network ... is not supported.`. -/
def getStatusPayload (f : NetworkFamily) : Except String JsonRpcCall :=
  if isUtxoBasedNetwork f then .ok ⟨"2.0", 1, "getblockcount", []⟩
  else if isEvmBasedNetwork f || isTronNetwork f then .ok ⟨"2.0", 1, "eth_blockNumber", []⟩
  else .error "Network is not supported."

/-- Embeds `Utils.parseStatusPayload`: for UTXO and EVM networks the height
is `BigNumber((response.result as number) || -1).toNumber()` — the result
when truthy, `-1` when the field is absent or `0`; every other network
(including Tron) throws `Network ... is not supported.`. -/
def parseStatusPayload (f : NetworkFamily) (response : JsonRpcResponse) :
    Except String Int :=
  if isUtxoBasedNetwork f || isEvmBasedNetwork f then
    .ok (match response.result with
      | some v => if v = 0 then -1 else v
      | none => -1)
  else .error "Network is not supported."

/-- C8 evidence. For the Tron family the probe request is the
`eth_blockNumber` envelope, as claimed — but decoding the probe response
throws the unsupported-network error instead of returning the height:
`parseStatusPayload` guards only on `isUtxoBasedNetwork ||
isEvmBasedNetwork` and omits `isTronNetwork`, so every Tron probe response
(here `{result: 5}`) is rejected. -/
theorem tron_parseStatusPayload_raises :
    getStatusPayload .tron = .ok ⟨"2.0", 1, "eth_blockNumber", []⟩ ∧
      parseStatusPayload .tron ⟨some 5⟩ = .error "Network is not supported." ∧
      parseStatusPayload .evm ⟨some 5⟩ = .ok 5 := by
  decide

end TatumLB
